import Mathlib

/-!
Shallow embedding of the `simple-file-io` benchmarking scripts
(`src/bench/benchmark_python.py`, `src/bench/bench_python.py`,
`src/bench/bench_python_all.py`) and proofs about them.

File contents are modelled as `List Char` (all payloads are ASCII, so byte
length and character length coincide).  Durations are rationals (the scripts
use floating-point seconds; only ordering and arithmetic identities matter
here).  Wall-clock reads are modelled as a function from read-index to time.
-/

/- ------------------------------------------------------------------
   Data preparation (benchmark_python.py, lines 10-16)
   ------------------------------------------------------------------ -/

/-- `data_str = "A" * DATA_SIZE` (benchmark_python.py line 11). -/
def data_str (DATA_SIZE : Nat) : List Char := List.replicate DATA_SIZE 'A'

/-- `data_bytes = b"A" * DATA_SIZE` (benchmark_python.py line 12). -/
def data_bytes (DATA_SIZE : Nat) : List Char := List.replicate DATA_SIZE 'A'

/-- `line_size = 1024` (benchmark_python.py line 15). -/
def line_size : Nat := 1024

/-- `lines = ["A" * (line_size - 1) + "\n" for _ in range(DATA_SIZE // line_size)]`
(benchmark_python.py line 16). -/
def linesData (DATA_SIZE : Nat) : List (List Char) :=
  List.replicate (DATA_SIZE / line_size) (List.replicate (line_size - 1) 'A' ++ ['\n'])

/- ------------------------------------------------------------------
   Write functions: the file content each one leaves on disk
   (benchmark_python.py, lines 55-78)
   ------------------------------------------------------------------ -/

/-- File content produced by `write_string` (lines 56-60): the whole `data_str`. -/
def write_string (DATA_SIZE : Nat) : List Char := data_str DATA_SIZE

/-- File content produced by `write_bytes` (lines 62-66): the whole `data_bytes`. -/
def write_bytes (DATA_SIZE : Nat) : List Char := data_bytes DATA_SIZE

/-- File content produced by `write_lines` (lines 68-71): `f.writelines(lines)`
concatenates all lines. -/
def write_lines (DATA_SIZE : Nat) : List Char := (linesData DATA_SIZE).flatten

/-- File content produced by `write_line` (lines 73-78): a `for` loop writing the
lines one at a time, i.e. a left fold of appends. -/
def write_line (DATA_SIZE : Nat) : List Char :=
  (linesData DATA_SIZE).foldl (fun acc l => acc ++ l) []

/-- `LINES = ["x"] * 1_000_000` (bench_python_all.py line 6). -/
def LINES_all : List (List Char) := List.replicate 1000000 ['x']

/-- File content produced by `benchmark_write_lines` (bench_python_all.py lines
32-36): `f.writelines(line + "\n" for line in LINES)`. -/
def benchAll_write_lines : List Char :=
  (LINES_all.map (fun l => l ++ ['\n'])).flatten

/- ------------------------------------------------------------------
   Read functions (benchmark_python.py, lines 81-101)
   ------------------------------------------------------------------ -/

/-- `read_string` (lines 82-84): `f.read()` returns the whole content. -/
def read_string (file : List Char) : List Char := file

/-- `read_bytes` (lines 86-88): `f.read()` on a binary handle returns the whole
content. -/
def read_bytes (file : List Char) : List Char := file

/-- One step of the `readlines` split, consuming characters from the right:
a newline always starts a fresh (newline-terminated) line; any other character
is prepended to the line currently being built. -/
def readlinesAux (c : Char) (acc : List (List Char)) : List (List Char) :=
  if c = '\n' then ['\n'] :: acc
  else
    match acc with
    | [] => [[c]]
    | l :: ls => (c :: l) :: ls

/-- `read_lines` (lines 90-92): `f.readlines()` splits the content into lines,
each line keeping its terminating newline, with a final unterminated segment
kept as-is. -/
def read_lines (file : List Char) : List (List Char) :=
  file.foldr readlinesAux []

/-- One `f.readline()` call (benchmark_python.py line 97): returns the prefix up
to and including the first newline (or the whole rest at end of file), together
with the remaining content. -/
def readline (s : List Char) : List Char × List Char :=
  match s with
  | [] => ([], [])
  | c :: rest =>
    if c = '\n' then ([c], rest)
    else
      let p := readline rest
      (c :: p.1, p.2)

theorem readline_fst_append_snd (s : List Char) : (readline s).1 ++ (readline s).2 = s := by
  induction s with
  | nil => rfl
  | cons c rest ih =>
    by_cases h : c = '\n'
    · simp [readline, h]
    · simp [readline, h, ih]

theorem readline_snd_length_lt (s : List Char) (h : s ≠ []) :
    (readline s).2.length < s.length := by
  induction s with
  | nil => exact absurd rfl h
  | cons c rest ih =>
    by_cases hc : c = '\n'
    · simp [readline, hc]
    · simp only [readline, if_neg hc, List.length_cons]
      rcases List.eq_nil_or_concat rest with hr | ⟨_, _, hr⟩
      · subst hr; simp [readline]
      · exact Nat.lt_succ_of_lt (ih (by simp [hr]))

/-- `read_line` (lines 94-101): loop calling `readline` and collecting the
returned lines until an empty string signals end of file. -/
def read_line (s : List Char) : List (List Char) :=
  if h : s = [] then []
  else
    let p := readline s
    p.1 :: read_line p.2
termination_by s.length
decreasing_by exact readline_snd_length_lt s h

/- ------------------------------------------------------------------
   Timing harness (benchmark_python.py, lines 37-52)
   ------------------------------------------------------------------ -/

/-- The observable events of one trial of the `timed_median` loop, in the order
the statements appear in the source (lines 39-50): optional setup, the
`start = time.perf_counter()` read, the `result = func()` call, the
`end = time.perf_counter()` read, then the materialization of `result`. -/
inductive TrialEvent
  | setupEv
  | clockStart
  | invokeEv
  | clockEnd
  | materializeEv
deriving DecidableEq, Repr

/-- The event trace of one trial of `timed_median`, with or without a setup
step, in source-statement order. -/
def trialTrace (hasSetup : Bool) : List TrialEvent :=
  (if hasSetup then [TrialEvent.setupEv] else []) ++
    [TrialEvent.clockStart, TrialEvent.invokeEv, TrialEvent.clockEnd, TrialEvent.materializeEv]

/-- Wall-clock cost (in seconds) of the three work steps of one trial. -/
structure TrialCosts where
  setupCost : Nat
  invokeCost : Nat
  matCost : Nat
deriving DecidableEq, Repr

/-- Clock value at the `start = time.perf_counter()` read (line 42): the setup
has already run. -/
def clockStartTime (c : TrialCosts) : Nat := c.setupCost

/-- Clock value at the `end = time.perf_counter()` read (line 44): setup and
`func()` have run, the materialization (lines 46-49) has not. -/
def clockEndTime (c : TrialCosts) : Nat := c.setupCost + c.invokeCost

/-- The duration recorded for one trial, `(end - start) * 1000.0` (line 50),
in milliseconds. -/
def recordedDuration (c : TrialCosts) : Nat :=
  (clockEndTime c - clockStartTime c) * 1000

/-- The list of the `runs` durations collected by the `timed_median` loop,
where `durations i` is the measured duration of trial `i`. -/
def collectTimes (durations : Nat → ℚ) (runs : Nat) : List ℚ :=
  (List.range runs).map durations

/-- `timed_median` (lines 37-52): collect `runs` durations, `times.sort()`,
return `times[len(times) // 2]`. -/
def timed_median (durations : Nat → ℚ) (runs : Nat) : ℚ :=
  (List.mergeSort (collectTimes durations runs)).getD (runs / 2) 0

/-- Duration of trial `i` when the clock reads for trial `i` are clock samples
`2*i` (start, line 42) and `2*i+1` (end, line 44) of a clock `c`, converted to
milliseconds as on line 50. -/
def trialDuration (c : Nat → ℚ) (i : Nat) : ℚ :=
  (c (2 * i + 1) - c (2 * i)) * 1000

/-- The duration printed by the single-trial scripts (bench_python.py lines
7-10: `start = time.time()`, the operation, `time.time() - start`). -/
def singleTrialDuration (c : Nat → ℚ) : ℚ := c 1 - c 0

/- ------------------------------------------------------------------
   Cache-drop advisory (benchmark_python.py, lines 19-34)
   ------------------------------------------------------------------ -/

/-- The environment a `drop_cache` call runs in: whether `ctypes.CDLL(None)`
succeeded at import time, and which of the three calls inside the `try` block
raise (`os.open` on a missing or unreadable file, the `posix_fadvise` call on
an unsupported platform, `os.close`). -/
structure CacheEnv where
  libcAvailable : Bool
  openFails : Bool
  fadviseFails : Bool
  closeFails : Bool
deriving DecidableEq, Repr

/-- The body of the `try` block in `drop_cache` (lines 30-33): `os.open`, then
`posix_fadvise`, then `os.close`; the first failing call raises. -/
def drop_cache_body (env : CacheEnv) : Except Unit Unit :=
  if env.openFails then .error ()
  else if env.fadviseFails then .error ()
  else if env.closeFails then .error ()
  else .ok ()

/-- The `except Exception: pass` handler (line 34): any raised exception is
swallowed and the call returns normally. -/
def tryExceptPass (act : Except Unit Unit) : Except Unit Unit :=
  match act with
  | .ok _ => .ok ()
  | .error _ => .ok ()

/-- `drop_cache` (lines 26-34): return immediately if libc is unavailable,
otherwise run the advisory calls under a catch-all handler. -/
def drop_cache (env : CacheEnv) : Except Unit Unit :=
  if env.libcAvailable then tryExceptPass (drop_cache_body env) else .ok ()

/-- One read trial preceded by its cache-drop setup (lines 39-41): an uncaught
exception in the setup would propagate and abort the trial; otherwise the trial
runs and produces its duration. -/
def trialWithSetup (env : CacheEnv) (dur : ℚ) : Except Unit ℚ :=
  match drop_cache env with
  | .error e => .error e
  | .ok _ => .ok dur

/- ------------------------------------------------------------------
   Durability actions of the timed write bodies
   ------------------------------------------------------------------ -/

/-- File-level actions a timed write body can perform, in order. -/
inductive FileAction
  | openW
  | writeData
  | flushBuf
  | fsyncFile
  | closeFile
deriving DecidableEq, Repr

/-- Actions of `write_string` in benchmark_python.py (lines 56-60): open,
`f.write`, `f.flush()`, `os.fsync(f.fileno())`, close on leaving the `with`. -/
def write_string_actions : List FileAction :=
  [.openW, .writeData, .flushBuf, .fsyncFile, .closeFile]

/-- Actions of `write_bytes` in benchmark_python.py (lines 62-66). -/
def write_bytes_actions : List FileAction :=
  [.openW, .writeData, .flushBuf, .fsyncFile, .closeFile]

/-- Actions of `write_lines` in benchmark_python.py (lines 68-71). -/
def write_lines_actions : List FileAction :=
  [.openW, .writeData, .flushBuf, .fsyncFile, .closeFile]

/-- Actions of `write_line` in benchmark_python.py (lines 73-78). -/
def write_line_actions : List FileAction :=
  [.openW, .writeData, .flushBuf, .fsyncFile, .closeFile]

/-- Actions inside the timed window of the write benchmark of bench_python.py
(lines 7-10): open, `f.write(data)`, close on leaving the `with`; no explicit
flush and no fsync. -/
def benchPython_writeAll_actions : List FileAction :=
  [.openW, .writeData, .closeFile]

/-- Actions inside the timed window of `benchmark_write_string` of
bench_python_all.py (lines 8-12): open, `f.write(DATA)`, close; no explicit
flush and no fsync. -/
def benchPythonAll_writeString_actions : List FileAction :=
  [.openW, .writeData, .closeFile]

/-- A timed write body forces durability when it both flushes application
buffers and issues a synchronous commit (`fsync`) before returning. -/
def forcesDurability (acts : List FileAction) : Prop :=
  FileAction.flushBuf ∈ acts ∧ FileAction.fsyncFile ∈ acts

instance (acts : List FileAction) : Decidable (forcesDurability acts) := by
  unfold forcesDurability; infer_instance

/- ------------------------------------------------------------------
   Benchmark run and output (benchmark_python.py, lines 104-117)
   ------------------------------------------------------------------ -/

/-- The eight operation labels, in the order the script inserts them into
`results` (lines 105-113) and hence prints them (lines 116-117). -/
def benchOps : List String :=
  ["writeString", "writeBytes", "writeLines", "writeLine",
   "readString", "readBytes", "readLines", "readLine"]

/-- The `results` mapping built by lines 105-113: one `timed_median` value per
label, in insertion order, where `durations label i` is the duration measured
for trial `i` of the operation with that label. -/
def runBenchmarks (durations : String → Nat → ℚ) : List (String × ℚ) :=
  [("writeString", timed_median (durations "writeString") 30),
   ("writeBytes", timed_median (durations "writeBytes") 30),
   ("writeLines", timed_median (durations "writeLines") 30),
   ("writeLine", timed_median (durations "writeLine") 30),
   ("readString", timed_median (durations "readString") 30),
   ("readBytes", timed_median (durations "readBytes") 30),
   ("readLines", timed_median (durations "readLines") 30),
   ("readLine", timed_median (durations "readLine") 30)]

/- ------------------------------------------------------------------
   Helper lemmas
   ------------------------------------------------------------------ -/

theorem read_lines_cons (c : Char) (s : List Char) :
    read_lines (c :: s) = readlinesAux c (read_lines s) := rfl

theorem read_lines_eq_cons (s : List Char) (h : s ≠ []) :
    read_lines s = (readline s).1 :: read_lines (readline s).2 := by
  induction s with
  | nil => exact absurd rfl h
  | cons c rest ih =>
    by_cases hc : c = '\n'
    · subst hc
      simp [read_lines_cons, readlinesAux, readline]
    · rw [read_lines_cons]
      rcases List.eq_nil_or_concat rest with hr | ⟨_, _, hr⟩
      · subst hr
        simp [readlinesAux, readline, hc, read_lines]
      · have hrest : rest ≠ [] := by simp [hr]
        rw [ih hrest]
        simp [readlinesAux, readline, hc]

theorem read_lines_append_line (xs s : List Char) (hx : '\n' ∉ xs) :
    read_lines (xs ++ '\n' :: s) = (xs ++ ['\n']) :: read_lines s := by
  induction xs with
  | nil => simp [read_lines_cons, readlinesAux]
  | cons x xs ih =>
    have hxn : x ≠ '\n' := fun hh => hx (hh ▸ List.mem_cons_self x xs)
    have hxs : '\n' ∉ xs := fun hh => hx (List.mem_cons_of_mem x hh)
    rw [List.cons_append, read_lines_cons, ih hxs]
    simp [readlinesAux, hxn]

theorem read_lines_flatten_replicate (n : Nat) (xs : List Char) (hx : '\n' ∉ xs) :
    read_lines (List.flatten (List.replicate n (xs ++ ['\n']))) =
      List.replicate n (xs ++ ['\n']) := by
  induction n with
  | zero => rfl
  | succ n ih =>
    rw [List.replicate_succ, List.flatten_cons, List.append_assoc, List.singleton_append,
      read_lines_append_line xs _ hx, ih]

theorem foldl_append_eq_append_flatten (L : List (List Char)) (acc : List Char) :
    L.foldl (fun acc l => acc ++ l) acc = acc ++ L.flatten := by
  induction L generalizing acc with
  | nil => simp
  | cons l L ih => simp [List.foldl_cons, ih, List.append_assoc]

theorem line_length_1024 : (List.replicate (line_size - 1) 'A' ++ ['\n']).length = 1024 := by
  rw [List.length_append, List.length_replicate]
  rfl

theorem write_lines_length (S : Nat) : (write_lines S).length = S / 1024 * 1024 := by
  rw [write_lines, List.length_flatten, linesData, List.map_replicate, line_length_1024,
    List.sum_replicate, smul_eq_mul]
  rfl

theorem length_collectTimes (d : Nat → ℚ) (runs : Nat) :
    (collectTimes d runs).length = runs := by
  simp [collectTimes]

theorem length_mergeSort_collectTimes (d : Nat → ℚ) (runs : Nat) :
    (List.mergeSort (collectTimes d runs)).length = runs := by
  rw [(List.mergeSort_perm (collectTimes d runs) _).length_eq, length_collectTimes]

theorem half_lt_length_mergeSort (d : Nat → ℚ) (runs : Nat) (h : 0 < runs) :
    runs / 2 < (List.mergeSort (collectTimes d runs)).length := by
  rw [length_mergeSort_collectTimes]
  exact Nat.div_lt_self h (by norm_num)

theorem timed_median_eq_getElem (d : Nat → ℚ) (runs : Nat) (h : 0 < runs) :
    timed_median d runs =
      (List.mergeSort (collectTimes d runs)).get
        ⟨runs / 2, half_lt_length_mergeSort d runs h⟩ := by
  rw [timed_median, List.get_eq_getElem,
    List.getD_eq_getElem _ _ (half_lt_length_mergeSort d runs h)]

theorem timed_median_mem (d : Nat → ℚ) (runs : Nat) (h : 0 < runs) :
    timed_median d runs ∈ collectTimes d runs := by
  rw [timed_median_eq_getElem d runs h, List.get_eq_getElem]
  exact ((List.mergeSort_perm (collectTimes d runs) _).mem_iff).mp
    (List.getElem_mem (half_lt_length_mergeSort d runs h))

theorem sorted_getElem_le_getElem (ts : List ℚ) (hs : ts.Sorted (· ≤ ·)) (i k : Nat)
    (hik : i ≤ k) (hi : i < ts.length) (hk : k < ts.length) :
    ts[i] ≤ ts[k] := by
  rcases Nat.lt_or_ge i k with hlt | hge
  · exact (List.pairwise_iff_getElem.mp hs) i k hi hk hlt
  · have : i = k := le_antisymm hik hge
    subst this
    exact le_refl _

theorem sorted_filter_le_length (ts : List ℚ) (hs : ts.Sorted (· ≤ ·)) (k : Nat)
    (hk : k < ts.length) :
    k + 1 ≤ (ts.filter (fun x => decide (x ≤ ts[k]))).length := by
  have htake : (ts.take (k + 1)).filter (fun x => decide (x ≤ ts[k])) = ts.take (k + 1) := by
    rw [List.filter_eq_self]
    intro x hx
    rw [List.mem_iff_getElem] at hx
    obtain ⟨i, hi, rfl⟩ := hx
    have hi' : i < ts.length := by
      have := hi
      rw [List.length_take] at this
      omega
    rw [List.getElem_take]
    have hik : i ≤ k := by
      have := hi
      rw [List.length_take] at this
      omega
    simpa using sorted_getElem_le_getElem ts hs i k hik hi' hk
  have hsplit : ts.filter (fun x => decide (x ≤ ts[k])) =
      (ts.take (k + 1)).filter (fun x => decide (x ≤ ts[k])) ++
        (ts.drop (k + 1)).filter (fun x => decide (x ≤ ts[k])) := by
    rw [← List.filter_append, List.take_append_drop]
  rw [hsplit, List.length_append, htake, List.length_take]
  omega

theorem sorted_filter_ge_length (ts : List ℚ) (hs : ts.Sorted (· ≤ ·)) (k : Nat)
    (hk : k < ts.length) :
    ts.length - k ≤ (ts.filter (fun x => decide (ts[k] ≤ x))).length := by
  have hdrop : (ts.drop k).filter (fun x => decide (ts[k] ≤ x)) = ts.drop k := by
    rw [List.filter_eq_self]
    intro x hx
    rw [List.mem_iff_getElem] at hx
    obtain ⟨i, hi, rfl⟩ := hx
    rw [List.getElem_drop]
    have hki : k + i < ts.length := by
      have := hi
      rw [List.length_drop] at this
      omega
    simpa using sorted_getElem_le_getElem ts hs k (k + i) (Nat.le_add_right k i) hk hki
  have hsplit : ts.filter (fun x => decide (ts[k] ≤ x)) =
      (ts.take k).filter (fun x => decide (ts[k] ≤ x)) ++
        (ts.drop k).filter (fun x => decide (ts[k] ≤ x)) := by
    rw [← List.filter_append, List.take_append_drop]
  rw [hsplit, List.length_append, hdrop, List.length_drop]
  omega

theorem div_1024_mul_eq_iff_dvd (S : Nat) : S / 1024 * 1024 = S ↔ 1024 ∣ S := by
  constructor
  · intro h
    exact ⟨S / 1024, by omega⟩
  · intro h
    exact Nat.div_mul_cancel h

/- ------------------------------------------------------------------
   Claim theorems
   ------------------------------------------------------------------ -/

/-- C1: in repeated-trial mode with `runs` samples, `timed_median` reports the
statistical median of the raw samples: the reported value is one of the
collected durations, at least `runs / 2 + 1` of the samples are `≤` it and at
least `runs - runs / 2` of them are `≥` it, and it is exactly the element at
0-indexed position `runs / 2` of the sorted sample list (index 15 for the
default `runs = 30`). -/
theorem C1_timed_median_is_statistical_median (d : Nat → ℚ) (runs : Nat) (h : 0 < runs) :
    timed_median d runs ∈ collectTimes d runs ∧
    runs / 2 + 1 ≤
      ((collectTimes d runs).filter (fun x => decide (x ≤ timed_median d runs))).length ∧
    runs - runs / 2 ≤
      ((collectTimes d runs).filter (fun x => decide (timed_median d runs ≤ x))).length ∧
    timed_median d runs = (List.mergeSort (collectTimes d runs)).getD (runs / 2) 0 := by
  have hsorted : (List.mergeSort (collectTimes d runs)).Sorted (· ≤ ·) :=
    List.sorted_mergeSort' (collectTimes d runs)
  have hk := half_lt_length_mergeSort d runs h
  have hmed := timed_median_eq_getElem d runs h
  refine ⟨timed_median_mem d runs h, ?_, ?_, ?_⟩
  · have hcount := sorted_filter_le_length (List.mergeSort (collectTimes d runs)) hsorted
      (runs / 2) hk
    have hperm := (List.mergeSort_perm (collectTimes d runs) (fun a b => decide (a ≤ b))).filter
      (fun x => decide (x ≤ timed_median d runs))
    rw [← hperm.length_eq]
    rw [hmed, List.get_eq_getElem]
    exact hcount
  · have hcount := sorted_filter_ge_length (List.mergeSort (collectTimes d runs)) hsorted
      (runs / 2) hk
    have hperm := (List.mergeSort_perm (collectTimes d runs) (fun a b => decide (a ≤ b))).filter
      (fun x => decide (timed_median d runs ≤ x))
    rw [← hperm.length_eq]
    rw [hmed, List.get_eq_getElem]
    rw [length_mergeSort_collectTimes] at hcount
    have := length_mergeSort_collectTimes d runs
    exact hcount
  · rfl

/-- C1 witness: at the default 30 runs, with the concrete durations
`d i = 30 - i`, the reported value is one of the 30 samples, at least 16 of the
samples are `≤` it, at least 15 are `≥` it, and it is the sorted element at
index `30 / 2 = 15`. -/
theorem C1_witness :
    0 < 30 ∧
    (timed_median (fun i => ((30 - i : Nat) : ℚ)) 30 ∈
        collectTimes (fun i => ((30 - i : Nat) : ℚ)) 30 ∧
      30 / 2 + 1 ≤
        ((collectTimes (fun i => ((30 - i : Nat) : ℚ)) 30).filter
          (fun x => decide (x ≤ timed_median (fun i => ((30 - i : Nat) : ℚ)) 30))).length ∧
      30 - 30 / 2 ≤
        ((collectTimes (fun i => ((30 - i : Nat) : ℚ)) 30).filter
          (fun x => decide (timed_median (fun i => ((30 - i : Nat) : ℚ)) 30 ≤ x))).length ∧
      timed_median (fun i => ((30 - i : Nat) : ℚ)) 30 =
        (List.mergeSort (collectTimes (fun i => ((30 - i : Nat) : ℚ)) 30)).getD (30 / 2) 0) :=
  ⟨by norm_num, C1_timed_median_is_statistical_median (fun i => ((30 - i : Nat) : ℚ)) 30
    (by norm_num)⟩

/-- C10: the `readline`-loop implementation `read_line` and the single-call
implementation `read_lines` return the same list of lines on every file
content. -/
theorem C10_read_line_eq_read_lines (s : List Char) : read_line s = read_lines s := by
  by_cases h : s = []
  · subst h
    rw [read_line]
    simp [read_lines]
  · rw [read_line, dif_neg h, read_lines_eq_cons s h]
    exact congrArg (List.cons (readline s).1) (C10_read_line_eq_read_lines (readline s).2)
termination_by s.length
decreasing_by exact readline_snd_length_lt s h

/-- C2 counterexample: in the trial loop of `timed_median`, the materialization
of the result happens strictly after the `end = time.perf_counter()` read, so
a trial whose materialization costs 1 unit records a duration that excludes
that cost: the claim "materialization happens before the clock stops and the
duration includes materialization cost" fails at `TrialCosts` `⟨0, 0, 1⟩`. -/
theorem C2_counterexample :
    recordedDuration ⟨0, 0, 1⟩ ≠ (0 + 1) * 1000 ∧
    ¬ (trialTrace false).indexOf TrialEvent.materializeEv <
        (trialTrace false).indexOf TrialEvent.clockEnd := by
  decide

/-- C2 amended: in every trial of `timed_median` (with or without a setup
step) the returned result is materialized, but only after the clock has been
stopped: the materialization event follows the `end` clock read in the trace,
and the recorded duration equals the invoke cost alone, excluding the
materialization cost. -/
theorem C2_materialize_after_clock_stop (b : Bool) (c : TrialCosts) :
    TrialEvent.materializeEv ∈ trialTrace b ∧
    (trialTrace b).indexOf TrialEvent.clockEnd <
      (trialTrace b).indexOf TrialEvent.materializeEv ∧
    recordedDuration c = c.invokeCost * 1000 := by
  refine ⟨?_, ?_, ?_⟩
  · cases b <;> decide
  · cases b <;> decide
  · simp [recordedDuration, clockEndTime, clockStartTime]

/-- C3 counterexample: the timed write bodies of bench_python.py (lines 7-10)
and of bench_python_all.py's `benchmark_write_string` (lines 8-12) issue
neither a flush nor an fsync, so the claim that every script variant forces
durability before the clock stops is false. -/
theorem C3_counterexample :
    ¬ forcesDurability benchPython_writeAll_actions ∧
    ¬ forcesDurability benchPythonAll_writeString_actions := by
  decide

/-- C3 amended: in benchmark_python.py all four timed write bodies flush
application buffers and then fsync, in that order after the payload write and
before the body returns (hence before `timed_median` stops the clock); the
single-trial variants bench_python.py and bench_python_all.py issue no flush
and no fsync inside their timed windows. -/
theorem C3_durability_only_in_benchmark_python :
    forcesDurability write_string_actions ∧
    forcesDurability write_bytes_actions ∧
    forcesDurability write_lines_actions ∧
    forcesDurability write_line_actions ∧
    (write_string_actions.indexOf FileAction.writeData <
        write_string_actions.indexOf FileAction.flushBuf ∧
      write_string_actions.indexOf FileAction.flushBuf <
        write_string_actions.indexOf FileAction.fsyncFile ∧
      write_string_actions.indexOf FileAction.fsyncFile <
        write_string_actions.indexOf FileAction.closeFile) ∧
    ¬ forcesDurability benchPython_writeAll_actions ∧
    ¬ forcesDurability benchPythonAll_writeString_actions := by
  decide

/-- C4 counterexample: for payload size 1 the line-mode write stores
`1 // 1024 = 0` lines, so reading the file back yields 0 bytes, not 1: the
round-trip size invariant fails for the line-by-line mode at `S = 1`. -/
theorem C4_counterexample :
    read_string (write_lines 1) = [] ∧ (read_string (write_lines 1)).length ≠ 1 := by
  constructor
  · rfl
  · decide

/-- C4 amended: for every size `S > 0`, whole-string and whole-bytes writes
round-trip to exactly `S` bytes and the two line-mode writers produce the same
file, but that file holds `S / 1024 * 1024` bytes, which equals `S` exactly
when `1024 ∣ S`; in particular at `S = 1024` (one line of 1023 filler
characters plus a newline) the line-mode round trip yields exactly 1024
bytes. -/
theorem C4_roundtrip_sizes (S : Nat) (_hS : 0 < S) :
    (read_string (write_string S)).length = S ∧
    (read_bytes (write_bytes S)).length = S ∧
    write_line S = write_lines S ∧
    (read_string (write_lines S)).length = S / 1024 * 1024 ∧
    ((read_string (write_lines S)).length = S ↔ 1024 ∣ S) ∧
    (read_string (write_lines 1024)).length = 1024 := by
  refine ⟨?_, ?_, ?_, ?_, ?_, ?_⟩
  · simp [read_string, write_string, data_str]
  · simp [read_bytes, write_bytes, data_bytes]
  · rw [write_line, foldl_append_eq_append_flatten, List.nil_append, write_lines]
  · rw [read_string, write_lines_length]
  · rw [read_string, write_lines_length]
    exact div_1024_mul_eq_iff_dvd S
  · rw [read_string, write_lines_length]

/-- C4 witness: the amended round-trip facts at the concrete size `S = 1`. -/
theorem C4_witness :
    0 < 1 ∧
    ((read_string (write_string 1)).length = 1 ∧
      (read_bytes (write_bytes 1)).length = 1 ∧
      write_line 1 = write_lines 1 ∧
      (read_string (write_lines 1)).length = 1 / 1024 * 1024 ∧
      ((read_string (write_lines 1)).length = 1 ↔ 1024 ∣ 1) ∧
      (read_string (write_lines 1024)).length = 1024) :=
  ⟨by norm_num, C4_roundtrip_sizes 1 (by norm_num)⟩

/-- C5: line-mode writes produce exactly the configured number of lines, each
terminated by exactly one newline: in benchmark_python.py, `read_lines` splits
the file written by `write_lines` into `DATA_SIZE / 1024` copies of the line
`"A" * 1023 + "\n"`, and in bench_python_all.py into 1,000,000 copies of
`"x\n"`; each such line contains exactly one newline, located at its end. -/
theorem C5_line_counts (S : Nat) :
    read_lines (write_lines S) =
      List.replicate (S / 1024) (List.replicate 1023 'A' ++ ['\n']) ∧
    (read_lines (write_lines S)).length = S / 1024 ∧
    (List.replicate 1023 'A' ++ ['\n']).count '\n' = 1 ∧
    (List.replicate 1023 'A' ++ ['\n']).getLast? = some '\n' ∧
    read_lines benchAll_write_lines = List.replicate 1000000 (['x'] ++ ['\n']) ∧
    (read_lines benchAll_write_lines).length = 1000000 ∧
    (['x'] ++ ['\n']).count '\n' = 1 ∧
    (['x'] ++ ['\n']).getLast? = some '\n' := by
  have hA : '\n' ∉ List.replicate 1023 'A' := by
    intro hmem
    exact absurd (List.eq_of_mem_replicate hmem) (by decide)
  have hx : '\n' ∉ (['x'] : List Char) := by decide
  have h1 : read_lines (write_lines S) =
      List.replicate (S / 1024) (List.replicate 1023 'A' ++ ['\n']) := by
    rw [write_lines, linesData]
    have : line_size - 1 = 1023 := rfl
    rw [this]
    have hls : S / line_size = S / 1024 := rfl
    rw [hls]
    exact read_lines_flatten_replicate (S / 1024) (List.replicate 1023 'A') hA
  have h2 : read_lines benchAll_write_lines = List.replicate 1000000 (['x'] ++ ['\n']) := by
    rw [benchAll_write_lines, LINES_all, List.map_replicate]
    exact read_lines_flatten_replicate 1000000 ['x'] hx
  refine ⟨h1, ?_, ?_, ?_, h2, ?_, ?_, ?_⟩
  · rw [h1, List.length_replicate]
  · rw [List.count_append, List.count_eq_zero.mpr hA]
    rfl
  · exact List.getLast?_concat _
  · rw [h2, List.length_replicate]
  · decide
  · exact List.getLast?_concat _

/-- C6: `drop_cache` never raises: whatever the environment (libc unavailable,
`os.open` failing on a missing or unreadable file, `posix_fadvise` failing on
an unsupported platform, `os.close` failing), it returns normally, and a timed
trial whose setup is `drop_cache` always proceeds to produce its duration. -/
theorem C6_drop_cache_never_raises (env : CacheEnv) (dur : ℚ) :
    drop_cache env = Except.ok () ∧ trialWithSetup env dur = Except.ok dur := by
  rcases env with ⟨l, o, f, c⟩
  cases l <;> cases o <;> cases f <;> cases c <;> exact ⟨rfl, rfl⟩

/-- C7: under a monotone clock, every reported duration is non-negative: the
single-trial `end - start` value, and the median reported by `timed_median`
over the per-trial `(end - start) * 1000` samples. -/
theorem C7_durations_nonneg (c : Nat → ℚ) (hmono : ∀ i j, i ≤ j → c i ≤ c j)
    (runs : Nat) (hr : 0 < runs) :
    0 ≤ singleTrialDuration c ∧ 0 ≤ timed_median (trialDuration c) runs := by
  constructor
  · have h01 := hmono 0 1 (by norm_num)
    rw [singleTrialDuration]
    linarith
  · have hmem := timed_median_mem (trialDuration c) runs hr
    rw [collectTimes, List.mem_map] at hmem
    obtain ⟨i, _, hieq⟩ := hmem
    rw [← hieq, trialDuration]
    have hstep := hmono (2 * i) (2 * i + 1) (Nat.le_succ _)
    have : (0 : ℚ) ≤ c (2 * i + 1) - c (2 * i) := by linarith
    positivity

/-- C7 witness: with the concrete monotone clock `c i = i` and the default 30
runs, both reported durations are non-negative. -/
theorem C7_witness :
    0 ≤ singleTrialDuration (fun i => (i : ℚ)) ∧
    0 ≤ timed_median (trialDuration (fun i => (i : ℚ))) 30 :=
  C7_durations_nonneg (fun i => (i : ℚ))
    (fun i j hij => by
      show (i : ℚ) ≤ (j : ℚ)
      exact_mod_cast hij) 30 (by norm_num)

/-- C8: which operations run, and in which order their labels are inserted and
printed, is independent of the measured timing values: any two runs of the
harness produce result sets with the same labels in the same fixed order
`writeString, writeBytes, writeLines, writeLine, readString, readBytes,
readLines, readLine`. -/
theorem C8_label_set_deterministic (d₁ d₂ : String → Nat → ℚ) :
    (runBenchmarks d₁).map Prod.fst = benchOps ∧
    (runBenchmarks d₁).map Prod.fst = (runBenchmarks d₂).map Prod.fst := by
  exact ⟨rfl, rfl⟩

/-- C9: the line payload of the argument-driven script has exactly
`DATA_SIZE / 1024` lines of exactly 1024 characters each, for a total of
`DATA_SIZE / 1024 * 1024` characters; that total is strictly less than
`DATA_SIZE` whenever 1024 does not divide `DATA_SIZE`, and the payload is
empty whenever `DATA_SIZE < 1024`. -/
theorem C9_lines_payload (S : Nat) :
    (linesData S).length = S / 1024 ∧
    (∀ l ∈ linesData S, l.length = 1024) ∧
    (write_lines S).length = S / 1024 * 1024 ∧
    (¬ 1024 ∣ S → (write_lines S).length < S) ∧
    (S < 1024 → linesData S = []) := by
  refine ⟨?_, ?_, write_lines_length S, ?_, ?_⟩
  · rw [linesData, List.length_replicate]
    rfl
  · intro l hl
    rw [List.eq_of_mem_replicate hl]
    exact line_length_1024
  · intro hdvd
    rw [write_lines_length]
    have hle : S / 1024 * 1024 ≤ S := Nat.div_mul_le_self S 1024
    have hne : S / 1024 * 1024 ≠ S := fun heq => hdvd ((div_1024_mul_eq_iff_dvd S).mp heq)
    omega
  · intro hlt
    rw [linesData, List.replicate_eq_nil_iff]
    have : S / line_size = 0 := Nat.div_eq_of_lt hlt
    exact this

/-- C9 witness: at the concrete sizes 1000 and 1024: 1024 does not divide
1000 and the line payload for 1000 stores fewer than 1000 characters; 1000 is
below 1024 and its line payload is empty; and the single line of the payload
for 1024 has exactly 1024 characters. -/
theorem C9_witness :
    ¬ 1024 ∣ 1000 ∧
    (write_lines 1000).length < 1000 ∧
    1000 < 1024 ∧
    linesData 1000 = [] ∧
    (List.replicate 1023 'A' ++ ['\n']).length = 1024 :=
  ⟨by decide, (C9_lines_payload 1000).2.2.2.1 (by decide), by decide,
    (C9_lines_payload 1000).2.2.2.2 (by decide),
    (C9_lines_payload 1024).2.1 (List.replicate 1023 'A' ++ ['\n'])
      (by rw [linesData]; exact List.mem_replicate.mpr ⟨by decide, rfl⟩)⟩
